import Mathlib

/-!
Shallow embedding of `src/source/cmd_validate.cpp` (repository
`wk11_exception_classes`), a console loop that reads a line, validates its
character set, lowercases it, and dispatches it against a fixed command
table, together with proofs of the specified properties.

Strings are modelled as `List Char` over ASCII; `isalpha` and `tolower`
model the C library functions on ASCII input (the "C" locale).  Thrown
exceptions are modelled with `Except` / an error constructor, and the
`exit(0)` call is modelled as a terminal outcome of the loop body.
-/

namespace CmdValidate

/-- Model of C `isalpha` on ASCII: true exactly on `A`-`Z` and `a`-`z`. -/
def isalpha (c : Char) : Bool :=
  (65 ≤ c.toNat && c.toNat ≤ 90) || (97 ≤ c.toNat && c.toNat ≤ 122)

/-- Model of C `tolower` on ASCII: maps `A`-`Z` to `a`-`z`, identity elsewhere. -/
def tolower (c : Char) : Char :=
  if 65 ≤ c.toNat && c.toNat ≤ 90 then Char.ofNat (c.toNat + 32) else c

/-- Lowercase ASCII letter test, used to state the invariant on normalized
commands. -/
def islower (c : Char) : Bool :=
  97 ≤ c.toNat && c.toNat ≤ 122

/-- The two exception classes of the source: `InvalidStringException`
(thrown by `validateString`) and `InvalidCommandException` (thrown by
`validateCommand`). -/
inductive CmdError where
  | invalidString
  | invalidCommand
deriving DecidableEq, Repr

/-- The `what()` message of each exception class, as in the source. -/
def whatMsg : CmdError → String
  | CmdError.invalidString => "Invalid string exception: "
  | CmdError.invalidCommand => "Unrecognized command exception: "

/-- Embedding of `void validateString(string& str)`: the for-loop over the
characters continues on `isalpha(c) || c == '-'` and otherwise throws
`InvalidStringException`; falling off the end returns normally. -/
def validateString : List Char → Except CmdError Unit
  | [] => Except.ok ()
  | c :: rest =>
    if isalpha c || c == '-' then validateString rest
    else Except.error CmdError.invalidString

/-- The parameter of `validateString` is a non-const reference.  To state
the frame property the call is modelled as also returning the final state
of the referenced string; the body only reads the characters and never
assigns through the reference, so that state is the argument itself. -/
def validateStringRef (str : List Char) : Except CmdError Unit × List Char :=
  (validateString str, str)

/-- Embedding of `string processInput(string& userInput)`: builds a fresh
string by pushing `tolower(c)` for each character of the input, i.e. the
character-by-character lowercase map. -/
def processInput (userInput : List Char) : List Char :=
  userInput.map tolower

/-- Reference-state view of `processInput`: result together with the final
state of the referenced argument (the body never writes through it). -/
def processInputRef (userInput : List Char) : List Char × List Char :=
  (processInput userInput, userInput)

/-- Outcome of `validateCommand`: a printed canonical output string and a
normal return, the quit path (which never returns), or a thrown
`InvalidCommandException`. -/
inductive DispatchResult where
  | ok (output : String)
  | quit
  | err (e : CmdError)
deriving DecidableEq, Repr

/-- Embedding of `void validateCommand(string& command)`: lowercases via
`processInput`, then the if-chain from the source; each `!compare`
disjunction is an equality test, the first match prints and returns, the
quit arm calls `quitFunction`, and no match throws
`InvalidCommandException`. -/
def validateCommand (command : List Char) : DispatchResult :=
  let processed := processInput command
  if processed = "p".toList ∨ processed = "play".toList then
    DispatchResult.ok "play\n\n"
  else if processed = "a".toList ∨ processed = "pause".toList then
    DispatchResult.ok "pause\n\n"
  else if processed = "r".toList ∨ processed = "rewind".toList then
    DispatchResult.ok "rewind\n\n"
  else if processed = "f".toList ∨ processed = "fast-forward".toList then
    DispatchResult.ok "fast-Forward\n\n"
  else if processed = "s".toList ∨ processed = "stop".toList then
    DispatchResult.ok "stop\n\n"
  else if processed = "q".toList ∨ processed = "quit".toList then
    DispatchResult.quit
  else
    DispatchResult.err CmdError.invalidCommand

/-- Reference-state view of `validateCommand`: the only use of the
reference is passing it to `processInput`, whose final reference state is
returned here as the final state of `command`. -/
def validateCommandRef (command : List Char) : DispatchResult × List Char :=
  (validateCommand command, (processInputRef command).2)

/-- The tokens recognized by the if-chain of `validateCommand`, in source
order: for each command, its accepted one-letter abbreviation and its full
word. -/
def commandTokens : List (List Char) :=
  ["p".toList, "play".toList, "a".toList, "pause".toList, "r".toList, "rewind".toList,
    "f".toList, "fast-forward".toList, "s".toList, "stop".toList, "q".toList, "quit".toList]

/-- Everything `quitFunction` prints before `exit(0)`: the "any key quits"
notice and the farewell `"quit\nGoodbye!\n"` (the intervening
`system("pause")` produces no modelled output). -/
def quitOutput : String :=
  "any key quits\n\n" ++ "quit\nGoodbye!\n"

/-- Outcome of one iteration of the `while (true)` loop in `main`: either
an output is printed and the loop resumes (normal dispatch or a caught
exception), or the process terminates with an exit code (the quit path). -/
inductive StepOutcome where
  | resume (output : String)
  | terminated (exitCode : Nat) (output : String)
deriving DecidableEq, Repr

/-- One iteration of the loop body of `main` on the line just read:
`validateString` then `validateCommand` inside `try`, each catch printing
`e.what() << input << "\n\n"` where `input` is the string variable in its
state after the calls (threaded through the reference-state views). -/
def loopIter (input : List Char) : StepOutcome :=
  match validateStringRef input with
  | (Except.error e, input1) => StepOutcome.resume (whatMsg e ++ input1.asString ++ "\n\n")
  | (Except.ok (), input1) =>
    match validateCommandRef input1 with
    | (DispatchResult.ok out, _) => StepOutcome.resume out
    | (DispatchResult.err e, input2) =>
        StepOutcome.resume (whatMsg e ++ input2.asString ++ "\n\n")
    | (DispatchResult.quit, _) => StepOutcome.terminated 0 quitOutput

/-- The loop of `main` over a stream of input lines: collects the output
of each iteration; a terminated iteration ends the run with its exit code,
and exhausting the modelled stream leaves the loop awaiting input
(`none`). -/
def runLoop : List (List Char) → List String × Option Nat
  | [] => ([], none)
  | input :: rest =>
    match loopIter input with
    | StepOutcome.resume out => (out :: (runLoop rest).1, (runLoop rest).2)
    | StepOutcome.terminated c out => ([out], some c)

theorem toNat_ofNat_of_lt (n : Nat) (h : n < 55296) : (Char.ofNat n).toNat = n := by
  have hv : n.isValidChar := Or.inl h
  simp [Char.ofNat, hv, Char.ofNatAux, Char.toNat, UInt32.toNat, BitVec.toNat_ofNatLt]

theorem toNat_tolower_of_upper (c : Char) (h1 : 65 ≤ c.toNat) (h2 : c.toNat ≤ 90) :
    (tolower c).toNat = c.toNat + 32 := by
  have hc : (65 ≤ c.toNat && c.toNat ≤ 90) = true := by
    simp [h1, h2]
  rw [tolower, if_pos hc]
  exact toNat_ofNat_of_lt _ (by omega)

theorem tolower_of_not_upper (c : Char) (h : ¬(65 ≤ c.toNat ∧ c.toNat ≤ 90)) :
    tolower c = c := by
  rw [tolower, if_neg]
  simpa using h

theorem isalpha_tolower (c : Char) : isalpha (tolower c) = isalpha c := by
  by_cases h : 65 ≤ c.toNat ∧ c.toNat ≤ 90
  · have ht := toNat_tolower_of_upper c h.1 h.2
    simp only [isalpha, ht]
    have h1 : (97 ≤ c.toNat + 32 && c.toNat + 32 ≤ 122) = true := by
      simp; omega
    have h2 : (65 ≤ c.toNat && c.toNat ≤ 90) = true := by
      simp; omega
    simp [h1, h2]
  · rw [tolower_of_not_upper c h]

theorem islower_tolower_of_isalpha (c : Char) (h : isalpha c = true) :
    islower (tolower c) = true := by
  by_cases hu : 65 ≤ c.toNat ∧ c.toNat ≤ 90
  · have ht := toNat_tolower_of_upper c hu.1 hu.2
    simp only [islower, ht]
    simp; omega
  · rw [tolower_of_not_upper c hu]
    simp only [isalpha, islower] at h ⊢
    simp at h ⊢
    omega

theorem tolower_eq_dash_iff (c : Char) : tolower c = '-' ↔ c = '-' := by
  constructor
  · intro h
    by_cases hu : 65 ≤ c.toNat ∧ c.toNat ≤ 90
    · exfalso
      have ht := toNat_tolower_of_upper c hu.1 hu.2
      rw [h] at ht
      have h45 : Char.toNat '-' = 45 := by decide
      rw [h45] at ht
      omega
    · rwa [tolower_of_not_upper c hu] at h
  · intro h
    subst h
    rw [tolower_of_not_upper]
    decide

theorem tolower_idem (c : Char) : tolower (tolower c) = tolower c := by
  by_cases hu : 65 ≤ c.toNat ∧ c.toNat ≤ 90
  · have ht := toNat_tolower_of_upper c hu.1 hu.2
    apply tolower_of_not_upper
    rw [ht]
    omega
  · rw [tolower_of_not_upper c hu, tolower_of_not_upper c hu]

theorem isalpha_of_isalpha_tolower (c : Char) (h : isalpha (tolower c) = true) :
    isalpha c = true := by
  rwa [isalpha_tolower] at h

theorem validateString_ok_iff (s : List Char) :
    validateString s = Except.ok () ↔ ∀ c ∈ s, isalpha c = true ∨ c = '-' := by
  induction s with
  | nil => simp [validateString]
  | cons c rest ih =>
    by_cases hc : (isalpha c || c == '-') = true
    · have hP : isalpha c = true ∨ c = '-' := by simpa using hc
      simp only [validateString]
      rw [if_pos hc, ih, List.forall_mem_cons]
      exact (and_iff_right hP).symm
    · have hP : ¬(isalpha c = true ∨ c = '-') := by simpa using hc
      simp only [validateString]
      rw [if_neg hc]
      constructor
      · intro h
        exact Except.noConfusion h
      · intro h
        exact absurd ((List.forall_mem_cons.mp h).1) hP

theorem validateString_error_kind (s : List Char) (e : CmdError)
    (h : validateString s = Except.error e) : e = CmdError.invalidString := by
  induction s with
  | nil => exact Except.noConfusion h
  | cons c rest ih =>
    by_cases hc : (isalpha c || c == '-') = true
    · simp only [validateString] at h
      rw [if_pos hc] at h
      exact ih h
    · simp only [validateString] at h
      rw [if_neg hc] at h
      exact (Except.error.inj h).symm

theorem validateString_error_iff (s : List Char) :
    validateString s = Except.error CmdError.invalidString ↔
      ¬ ∀ c ∈ s, isalpha c = true ∨ c = '-' := by
  constructor
  · intro h hall
    rw [(validateString_ok_iff s).mpr hall] at h
    exact Except.noConfusion h
  · intro h
    cases he : validateString s with
    | ok u =>
      cases u
      exact absurd ((validateString_ok_iff s).mp he) h
    | error e =>
      rw [validateString_error_kind s e he]

/-- Claim C1: the input validator signals InvalidCharacter exactly when its
input contains at least one character that is neither an ASCII letter nor a
dash: a string all of whose characters are letters or dashes makes
`validateString` return normally, and any other string makes it throw
`InvalidStringException`. -/
theorem C1 (s : List Char) :
    (validateString s = Except.ok () ↔ ∀ c ∈ s, isalpha c = true ∨ c = '-') ∧
    (validateString s = Except.error CmdError.invalidString ↔
      ¬ ∀ c ∈ s, isalpha c = true ∨ c = '-') :=
  ⟨validateString_ok_iff s, validateString_error_iff s⟩

/-- Claim C1, instantiated: the spec test input "12-3" contains digits and is
rejected with `InvalidStringException`. -/
theorem C1_witness :
    validateString "12-3".toList = Except.error CmdError.invalidString :=
  ((C1 "12-3".toList).2).mpr (by decide)

/-- Claim C8: the normalizer is idempotent on strings of letters and
dashes: `processInput (processInput s) = processInput s`. -/
theorem C8 (s : List Char) (_h : ∀ c ∈ s, isalpha c = true ∨ c = '-') :
    processInput (processInput s) = processInput s := by
  simp only [processInput, List.map_map]
  exact List.map_congr_left fun c _ => tolower_idem c

/-- Claim C8, instantiated at the valid input "Fast-Forward". -/
theorem C8_witness :
    processInput (processInput "Fast-Forward".toList) =
      processInput "Fast-Forward".toList :=
  C8 "Fast-Forward".toList (by decide)

/-- Claim C2: every input whose lowercased form is a recognized non-quit
token is dispatched to exactly the corresponding canonical output string
and returns normally; in particular "p" prints play, "PLAY" prints play,
and "Pause" prints pause. -/
theorem C2 (s : List Char) :
    (processInput s = "p".toList ∨ processInput s = "play".toList →
      validateCommand s = DispatchResult.ok "play\n\n") ∧
    (processInput s = "a".toList ∨ processInput s = "pause".toList →
      validateCommand s = DispatchResult.ok "pause\n\n") ∧
    (processInput s = "r".toList ∨ processInput s = "rewind".toList →
      validateCommand s = DispatchResult.ok "rewind\n\n") ∧
    (processInput s = "f".toList ∨ processInput s = "fast-forward".toList →
      validateCommand s = DispatchResult.ok "fast-Forward\n\n") ∧
    (processInput s = "s".toList ∨ processInput s = "stop".toList →
      validateCommand s = DispatchResult.ok "stop\n\n") ∧
    validateCommand "p".toList = DispatchResult.ok "play\n\n" ∧
    validateCommand "PLAY".toList = DispatchResult.ok "play\n\n" ∧
    validateCommand "Pause".toList = DispatchResult.ok "pause\n\n" := by
  refine ⟨?_, ?_, ?_, ?_, ?_, by decide, by decide, by decide⟩ <;>
    (intro h
     simp only [validateCommand]
     rcases h with h | h <;> rw [h] <;> decide)

/-- Claim C2, instantiated: "REWIND" lowercases to the full word "rewind"
and is dispatched to the canonical rewind output. -/
theorem C2_witness :
    validateCommand "REWIND".toList = DispatchResult.ok "rewind\n\n" :=
  (C2 "REWIND".toList).2.2.1 (Or.inr (by decide))

/-- Claim C4 is false as stated: the single-letter abbreviation formed by
the first character of the command word "pause" is "p", but the dispatcher
sends "p" to play, not to pause; pause's accepted abbreviation is "a". -/
theorem C4_counterexample :
    "pause".toList.head? = some 'p' ∧
    validateCommand "p".toList = DispatchResult.ok "play\n\n" ∧
    validateCommand "pause".toList = DispatchResult.ok "pause\n\n" ∧
    ¬ validateCommand "p".toList = validateCommand "pause".toList := by
  decide

/-- Claim C4 as amended: for each command word except pause (play, rewind,
fast-forward, stop, quit) the dispatcher accepts the single-letter
abbreviation formed by the word's first character as a synonym for the
full word; for pause the accepted abbreviation is "a", its second letter,
and its first letter "p" is dispatched to play instead. -/
theorem C4 :
    validateCommand "p".toList = validateCommand "play".toList ∧
    validateCommand "r".toList = validateCommand "rewind".toList ∧
    validateCommand "f".toList = validateCommand "fast-forward".toList ∧
    validateCommand "s".toList = validateCommand "stop".toList ∧
    validateCommand "q".toList = validateCommand "quit".toList ∧
    validateCommand "a".toList = validateCommand "pause".toList ∧
    ¬ validateCommand "p".toList = validateCommand "pause".toList := by
  decide

/-- Claim C9: the empty input passes character validation vacuously, is
then reported as an unrecognized command rather than an invalid string,
and the loop resumes with the remaining inputs. -/
theorem C9 :
    validateString [] = Except.ok () ∧
    validateCommand [] = DispatchResult.err CmdError.invalidCommand ∧
    loopIter [] = StepOutcome.resume
      (whatMsg CmdError.invalidCommand ++ List.asString [] ++ "\n\n") ∧
    ∀ rest, runLoop ([] :: rest) =
      ((whatMsg CmdError.invalidCommand ++ List.asString [] ++ "\n\n") :: (runLoop rest).1,
        (runLoop rest).2) := by
  refine ⟨rfl, by decide, rfl, ?_⟩
  intro rest
  rfl

/-- Claim C3: an input whose lowercased form is "q" or "quit" passes
validation, reaches the quit arm of the dispatcher, prints the farewell,
and terminates the process with exit status 0 instead of returning
normally from the dispatcher. -/
theorem C3 (s : List Char)
    (h : processInput s = "q".toList ∨ processInput s = "quit".toList) :
    validateString s = Except.ok () ∧
    validateCommand s = DispatchResult.quit ∧
    loopIter s = StepOutcome.terminated 0 quitOutput ∧
    quitOutput = "any key quits\n\n" ++ "quit\nGoodbye!\n" ∧
    ∀ out, validateCommand s ≠ DispatchResult.ok out := by
  have h1 : validateString s = Except.ok () := by
    rw [validateString_ok_iff]
    intro c hc
    left
    apply isalpha_of_isalpha_tolower
    have hm : tolower c ∈ processInput s := List.mem_map_of_mem tolower hc
    rcases h with h | h <;> rw [h] at hm
    · exact (show ∀ d ∈ "q".toList, isalpha d = true by decide) _ hm
    · exact (show ∀ d ∈ "quit".toList, isalpha d = true by decide) _ hm
  have h2 : validateCommand s = DispatchResult.quit := by
    simp only [validateCommand]
    rcases h with h | h <;> rw [h] <;> decide
  have h3 : loopIter s = StepOutcome.terminated 0 quitOutput := by
    simp [loopIter, validateStringRef, validateCommandRef, processInputRef, h1, h2]
  refine ⟨h1, h2, h3, rfl, ?_⟩
  intro out hout
  rw [h2] at hout
  exact DispatchResult.noConfusion hout

/-- Claim C3, instantiated at the input "QUIT". -/
theorem C3_witness :
    loopIter "QUIT".toList = StepOutcome.terminated 0 quitOutput :=
  (C3 "QUIT".toList (Or.inr (by decide))).2.2.1

/-- Claim C5: an input that passes character validation but whose
lowercased form matches no entry of the command table is reported as an
unrecognized command, with the literal original input echoed after the
exception's message. -/
theorem C5 (s : List Char) (hv : validateString s = Except.ok ())
    (hn : processInput s ∉ commandTokens) :
    validateCommand s = DispatchResult.err CmdError.invalidCommand ∧
    loopIter s = StepOutcome.resume
      (whatMsg CmdError.invalidCommand ++ s.asString ++ "\n\n") ∧
    whatMsg CmdError.invalidCommand = "Unrecognized command exception: " := by
  simp only [commandTokens, List.mem_cons, List.not_mem_nil, or_false, not_or] at hn
  obtain ⟨h1, h2, h3, h4, h5, h6, h7, h8, h9, h10, h11, h12⟩ := hn
  have hcmd : validateCommand s = DispatchResult.err CmdError.invalidCommand := by
    simp only [validateCommand]
    rw [if_neg (by tauto), if_neg (by tauto), if_neg (by tauto), if_neg (by tauto),
      if_neg (by tauto), if_neg (by tauto)]
  refine ⟨hcmd, ?_, rfl⟩
  simp [loopIter, validateStringRef, validateCommandRef, processInputRef, hv, hcmd]

/-- Claim C5, instantiated at the spec test input "xyz". -/
theorem C5_witness :
    loopIter "xyz".toList = StepOutcome.resume
      (whatMsg CmdError.invalidCommand ++ "xyz".toList.asString ++ "\n\n") :=
  (C5 "xyz".toList (by rfl) (by decide)).2.1

theorem loopIter_terminated (s : List Char) (c : Nat) (out : String)
    (h : loopIter s = StepOutcome.terminated c out) :
    c = 0 ∧ out = quitOutput ∧ validateString s = Except.ok () ∧
      validateCommand s = DispatchResult.quit := by
  cases hv : validateString s with
  | error e =>
    simp [loopIter, validateStringRef, hv] at h
  | ok u =>
    cases u
    cases hc : validateCommand s with
    | ok o =>
      simp [loopIter, validateStringRef, validateCommandRef, processInputRef, hv, hc] at h
    | err e =>
      simp [loopIter, validateStringRef, validateCommandRef, processInputRef, hv, hc] at h
    | quit =>
      simp [loopIter, validateStringRef, validateCommandRef, processInputRef, hv, hc] at h
      obtain ⟨h1, h2⟩ := h
      refine ⟨by omega, ?_, rfl, rfl⟩
      first
      | exact h2
      | exact h2.symm

/-- Claim C6: both failure kinds are non-fatal — each failing iteration
resumes the loop with the error reported and the original input echoed —
and a run of the loop terminates only with exit status 0, which happens
only through an input dispatched to the quit arm. -/
theorem C6 :
    (∀ s, validateString s = Except.error CmdError.invalidString →
      loopIter s = StepOutcome.resume
        (whatMsg CmdError.invalidString ++ s.asString ++ "\n\n")) ∧
    (∀ s, validateString s = Except.ok () →
      validateCommand s = DispatchResult.err CmdError.invalidCommand →
      loopIter s = StepOutcome.resume
        (whatMsg CmdError.invalidCommand ++ s.asString ++ "\n\n")) ∧
    (∀ inputs c, (runLoop inputs).2 = some c →
      c = 0 ∧ ∃ q ∈ inputs, validateCommand q = DispatchResult.quit) := by
  refine ⟨?_, ?_, ?_⟩
  · intro s hv
    simp [loopIter, validateStringRef, hv]
  · intro s hv hc
    simp [loopIter, validateStringRef, validateCommandRef, processInputRef, hv, hc]
  · intro inputs
    induction inputs with
    | nil =>
      intro c h
      simp [runLoop] at h
    | cons input rest ih =>
      intro c h
      cases hL : loopIter input with
      | resume out =>
        simp only [runLoop, hL] at h
        obtain ⟨hc0, q, hq, hquit⟩ := ih c h
        exact ⟨hc0, q, List.mem_cons_of_mem input hq, hquit⟩
      | terminated c2 out =>
        simp only [runLoop, hL] at h
        have hcs : c2 = c := Option.some.inj h
        obtain ⟨hc0, hout, hvv, hquit⟩ := loopIter_terminated input c2 out hL
        exact ⟨by omega, input, List.mem_cons_self input rest, hquit⟩

/-- Claim C6, instantiated: the invalid input "12x" resumes the loop, and
the run on the single input "quit" exits with status 0. -/
theorem C6_witness :
    loopIter "12x".toList = StepOutcome.resume
      (whatMsg CmdError.invalidString ++ "12x".toList.asString ++ "\n\n") ∧
    (0 = 0 ∧ ∃ q ∈ ["quit".toList], validateCommand q = DispatchResult.quit) :=
  ⟨C6.1 "12x".toList (by rfl), C6.2.2 ["quit".toList] 0 (by decide)⟩

/-- Claim C7: under a successful character validation the normalized
command is exactly the character-by-character lowercase transform of the
raw input and consists only of lowercase letters and dashes. -/
theorem C7 (s : List Char) (h : validateString s = Except.ok ()) :
    processInput s = s.map tolower ∧
    ∀ c ∈ processInput s, islower c = true ∨ c = '-' := by
  refine ⟨rfl, ?_⟩
  intro d hd
  have hall := (validateString_ok_iff s).mp h
  simp only [processInput, List.mem_map] at hd
  obtain ⟨c, hc, hdc⟩ := hd
  rcases hall c hc with ha | ha
  · left
    rw [← hdc]
    exact islower_tolower_of_isalpha c ha
  · right
    rw [← hdc, ha]
    exact (tolower_eq_dash_iff '-').mpr rfl

/-- Claim C7, instantiated at the valid input "PLAY". -/
theorem C7_witness :
    processInput "PLAY".toList = "PLAY".toList.map tolower ∧
    ∀ c ∈ processInput "PLAY".toList, islower c = true ∨ c = '-' :=
  C7 "PLAY".toList (by rfl)

/-- Claim C10: although the user's string is passed by non-const
reference, neither `validateString` nor `processInput` (nor
`validateCommand`, which calls `processInput` on it) changes it, so the
input echoed in every error message is the original raw input as typed. -/
theorem C10 (s : List Char) :
    (validateStringRef s).2 = s ∧
    (processInputRef s).2 = s ∧
    (validateCommandRef s).2 = s ∧
    (∀ e, validateString s = Except.error e →
      loopIter s = StepOutcome.resume (whatMsg e ++ s.asString ++ "\n\n")) ∧
    (∀ e, validateString s = Except.ok () →
      validateCommand s = DispatchResult.err e →
      loopIter s = StepOutcome.resume (whatMsg e ++ s.asString ++ "\n\n")) := by
  refine ⟨rfl, rfl, rfl, ?_, ?_⟩
  · intro e hv
    simp [loopIter, validateStringRef, hv]
  · intro e hv hc
    simp [loopIter, validateStringRef, validateCommandRef, processInputRef, hv, hc]

/-- Claim C10, instantiated: the reference state is unchanged on
"Hi-There", and the invalid input "a1" is echoed verbatim. -/
theorem C10_witness :
    (validateStringRef "Hi-There".toList).2 = "Hi-There".toList ∧
    loopIter "a1".toList = StepOutcome.resume
      (whatMsg CmdError.invalidString ++ "a1".toList.asString ++ "\n\n") :=
  ⟨(C10 "Hi-There".toList).1,
    (C10 "a1".toList).2.2.2.1 CmdError.invalidString (by rfl)⟩

end CmdValidate
